import Mathlib

/-!
Formal model of the LibAFL QEMU instrumentation-helper layer.

This file embeds, in Lean, the two source files of the core:
* `libafl_qemu/src/helper.rs` — the `QemuHelper` / `QemuHelperTuple`
  composition and dispatch mechanism, the `IsFilter` capability with the
  `QemuFilterList` allow/deny/unrestricted wrapper, the concrete
  address-range and paging-identifier filters, the
  `HasInstrumentationFilter::update_filter` operation, and the `hash_me`
  integer mixer;
* `libafl_targets/src/sancov_8bit.rs` — the process-wide coverage-counter
  registry `COUNTERS_MAPS` and its registration entry point
  `__sanitizer_cov_8bit_counters_init`.

Machine integers are modelled as `Nat` with explicit reduction modulo
`2 ^ 64` where the Rust code wraps.  Rust side effects (mutation of
`&mut self`, calls into the executor, pushes onto the global registry)
are modelled by explicit state passing: every callback returns its
updated state together with a trace of the externally visible events it
emitted, and the process-wide pieces of state are gathered in an explicit
`FuzzerState` record.
-/

namespace LibAFL

/-- Guest virtual address (`GuestAddr` from `libafl_qemu_sys`), modelled as `Nat`. -/
abbrev GuestAddr := Nat

/-- Guest physical address (`GuestPhysAddr` from `libafl_qemu_sys`), used as the
paging identifier; modelled as `Nat`. -/
abbrev GuestPhysAddr := Nat

/-! ## The filter capability (`trait IsFilter`, helper.rs lines 247-251) -/

/-- Rust trait `IsFilter`: an associated parameter type and one operation
`allowed(parameter) -> bool`. -/
class IsFilter (T : Type) where
  FilterParameter : Type
  allowed : T → FilterParameter → Bool

/-- Rust enum `QemuFilterList<T>` (helper.rs lines 145-150): an allow-list
wrapper, a deny-list wrapper, or the unrestricted variant `None`. -/
inductive QemuFilterList (T : Type) : Type where
  | AllowList (inner : T)
  | DenyList (inner : T)
  | None

/-- The `IsFilter` implementation for `QemuFilterList<T>`
(helper.rs lines 152-165): `AllowList` forwards to the inner filter,
`DenyList` negates it, `None` always answers `true`. -/
def QemuFilterList.allowed {T : Type} [inst : IsFilter T]
    (fl : QemuFilterList T) (p : inst.FilterParameter) : Bool :=
  match fl with
  | QemuFilterList.AllowList allow_list => IsFilter.allowed allow_list p
  | QemuFilterList.DenyList deny_list => !IsFilter.allowed deny_list p
  | QemuFilterList.None => true

instance instIsFilterQemuFilterList (T : Type) [inst : IsFilter T] :
    IsFilter (QemuFilterList T) where
  FilterParameter := inst.FilterParameter
  allowed := QemuFilterList.allowed

/-! ## Concrete filters -/

/-- A half-open Rust range `start..end` over guest addresses,
modelled as the pair (start, end). -/
abbrev GuestRange := GuestAddr × GuestAddr

/-- Rust `Range::contains`: `start <= addr && addr < end` (exclusive upper bound). -/
def GuestRange.contains (rng : GuestRange) (addr : GuestAddr) : Bool :=
  decide (rng.1 ≤ addr) && decide (addr < rng.2)

/-- The `IsFilter` implementation for `Vec<Range<GuestAddr>>`
(helper.rs lines 182-193): iterate the ranges in order and return `true` at
the first range containing `addr`, `false` when the list is exhausted. -/
def rangeListAllowed : List GuestRange → GuestAddr → Bool
  | [], _ => false
  | rng :: rest, addr => if rng.contains addr then true else rangeListAllowed rest addr

instance instIsFilterRangeList : IsFilter (List GuestRange) where
  FilterParameter := GuestAddr
  allowed := rangeListAllowed

/-- The `IsFilter` implementation for `HashSet<GuestPhysAddr, H>`
(helper.rs lines 169-178): `allowed(paging_id)` is
`paging_id.is_some_and(|pid| self.contains(&pid))`.  The hash set is
modelled as the list of its elements; `contains` is list membership. -/
def pagingSetAllowed (s : List GuestPhysAddr) (paging_id : Option GuestPhysAddr) : Bool :=
  match paging_id with
  | some pid => s.contains pid
  | none => false

instance instIsFilterPagingSet : IsFilter (List GuestPhysAddr) where
  FilterParameter := Option GuestPhysAddr
  allowed := pagingSetAllowed

/-! ## The executor handle and filter replacement -/

/-- Modelled from the spec: the executor (`crate::Qemu`) is an external
collaborator of the two source files; the only entry point the core calls on
it is `flush_jit()`, which invalidates the translation cache.  We model the
executor by the number of flush notifications it has received. -/
structure Qemu where
  jit_flush_count : Nat

/-- Modelled from the spec: `Qemu::flush_jit` records one translation-cache
flush notification. -/
def Qemu.flush_jit (emu : Qemu) : Qemu :=
  { emu with jit_flush_count := emu.jit_flush_count + 1 }

/-- A holder of one filter instance, as in the Rust trait
`HasInstrumentationFilter<F>` (helper.rs lines 195-207): `filter` is the
stored filter exposed by `filter()` / `filter_mut()`. -/
structure FilterHolder (F : Type) where
  filter : F

/-- Rust `HasInstrumentationFilter::update_filter` (helper.rs lines 203-206):
`*self.filter_mut() = filter; emu.flush_jit();`.  Returns the updated holder
and the updated executor. -/
def update_filter {F : Type} (holder : FilterHolder F) (filter : F) (emu : Qemu) :
    FilterHolder F × Qemu :=
  ({ holder with filter := filter }, emu.flush_jit)

/-! ## The hash utility (helper.rs lines 263-269) -/

/-- Rust `hash_me`: three rounds over a `u64`, with
`overflowing_shr(16)` (a plain right shift, since 16 < 64) and
`overflowing_mul(0x45d9f3b)` (wrapping multiplication modulo `2 ^ 64`).
The third round is `(x >> 16 ^ x) ^ x`, exactly as written in the source. -/
def hash_me (x : Nat) : Nat :=
  let x1 := ((x >>> 16) ^^^ x) * 0x45d9f3b % 2 ^ 64
  let x2 := ((x1 >>> 16) ^^^ x1) * 0x45d9f3b % 2 ^ 64
  ((x2 >>> 16) ^^^ x2) ^^^ x2

/-! ## The helper contract and the helper chain (helper.rs lines 12-143)

A Rust `QemuHelper` is a type with four lifecycle callbacks and a
compile-time `HOOKS_DO_SIDE_EFFECTS` flag.  `init_hooks` and `first_exec`
take `&self` and the hooks handle; `pre_exec` takes `&mut self`, the
executor and the input; `post_exec` additionally threads the mutable
observer set and the mutable exit kind.  Effects on the external hooks
handle and executor are modelled as an emitted event trace of type `Ev`;
mutation of `self` is modelled by returning the updated helper state. -/

/-- One instrumentation helper (Rust trait `QemuHelper<S>`, helper.rs lines
12-42), with state type `σ`, input type `Input`, observer-set type `Obs`,
exit-kind type `Ex` and event type `Ev`.  The default field values are the
trait's defaults: `HOOKS_DO_SIDE_EFFECTS = true` and all four callbacks
no-ops. -/
structure QemuHelper (σ Input Obs Ex Ev : Type) where
  HOOKS_DO_SIDE_EFFECTS : Bool := true
  init_hooks : σ → List Ev := fun _ => []
  first_exec : σ → List Ev := fun _ => []
  pre_exec : σ → Input → σ × List Ev := fun s _ => (s, [])
  post_exec : σ → Input → Obs → Ex → σ × Obs × Ex × List Ev :=
    fun s _ observers exit_kind => (s, observers, exit_kind, [])

/-- A helper chain (Rust trait `QemuHelperTuple<S>`): nested pairs
`(Head, Tail)` terminating in the unit `()`.  `pair` carries the head
helper's vtable together with its current state. -/
inductive QemuHelperTuple (Input Obs Ex Ev : Type) : Type 1 where
  | unit : QemuHelperTuple Input Obs Ex Ev
  | pair {σ : Type} (head : QemuHelper σ Input Obs Ex Ev) (state : σ)
      (tail : QemuHelperTuple Input Obs Ex Ev) : QemuHelperTuple Input Obs Ex Ev

namespace QemuHelperTuple

variable {Input Obs Ex Ev : Type}

/-- `QemuHelperTuple::HOOKS_DO_SIDE_EFFECTS`: `false` for `()` (helper.rs
line 74), `Head::HOOKS_DO_SIDE_EFFECTS || Tail::HOOKS_DO_SIDE_EFFECTS` for
`(Head, Tail)` (helper.rs line 108). -/
def HOOKS_DO_SIDE_EFFECTS : QemuHelperTuple Input Obs Ex Ev → Bool
  | unit => false
  | pair head _ tail => head.HOOKS_DO_SIDE_EFFECTS || tail.HOOKS_DO_SIDE_EFFECTS

/-- `init_hooks_all` (helper.rs lines 76-80 and 110-116): `()` does nothing;
`(Head, Tail)` runs `self.0.init_hooks(hooks)` then `self.1.init_hooks_all(hooks)`.
Returns the trace of emitted hook events. -/
def init_hooks_all : QemuHelperTuple Input Obs Ex Ev → List Ev
  | unit => []
  | pair head state tail => head.init_hooks state ++ tail.init_hooks_all

/-- `first_exec_all` (helper.rs lines 82-86 and 118-124): `()` does nothing;
`(Head, Tail)` runs `self.0.first_exec(hooks)` then `self.1.first_exec_all(hooks)`. -/
def first_exec_all : QemuHelperTuple Input Obs Ex Ev → List Ev
  | unit => []
  | pair head state tail => head.first_exec state ++ tail.first_exec_all

/-- `pre_exec_all` (helper.rs lines 88 and 126-129): `()` does nothing;
`(Head, Tail)` runs `self.0.pre_exec(emulator, input)` then
`self.1.pre_exec_all(emulator, input)`.  Returns the updated chain and the
trace. -/
def pre_exec_all (input : Input) :
    QemuHelperTuple Input Obs Ex Ev → QemuHelperTuple Input Obs Ex Ev × List Ev
  | unit => (unit, [])
  | pair head state tail =>
      let hd := head.pre_exec state input
      let tl := tail.pre_exec_all input
      (pair head hd.1 tl.1, hd.2 ++ tl.2)

/-- `post_exec_all` (helper.rs lines 90-99 and 131-142): `()` does nothing;
`(Head, Tail)` runs `self.0.post_exec(emulator, input, observers, exit_kind)`
then `self.1.post_exec_all(...)`, threading the mutable observer set and
exit kind through the members in order. -/
def post_exec_all (input : Input) (observers : Obs) (exit_kind : Ex) :
    QemuHelperTuple Input Obs Ex Ev →
      QemuHelperTuple Input Obs Ex Ev × Obs × Ex × List Ev
  | unit => (unit, observers, exit_kind, [])
  | pair head state tail =>
      let hd := head.post_exec state input observers exit_kind
      let tl := tail.post_exec_all input hd.2.1 hd.2.2.1
      (pair head hd.1 tl.1, tl.2.1, tl.2.2.1, hd.2.2.2 ++ tl.2.2.2)

/-- The list of the members' `HOOKS_DO_SIDE_EFFECTS` flags, in declaration order. -/
def memberFlags : QemuHelperTuple Input Obs Ex Ev → List Bool
  | unit => []
  | pair head _ tail => head.HOOKS_DO_SIDE_EFFECTS :: tail.memberFlags

/-- The trace each member's own `init_hooks` callback emits, in declaration order. -/
def memberInitTraces : QemuHelperTuple Input Obs Ex Ev → List (List Ev)
  | unit => []
  | pair head state tail => head.init_hooks state :: tail.memberInitTraces

/-- The trace each member's own `first_exec` callback emits, in declaration order. -/
def memberFirstTraces : QemuHelperTuple Input Obs Ex Ev → List (List Ev)
  | unit => []
  | pair head state tail => head.first_exec state :: tail.memberFirstTraces

/-- The trace each member's own `pre_exec` callback emits, in declaration order. -/
def memberPreTraces (input : Input) : QemuHelperTuple Input Obs Ex Ev → List (List Ev)
  | unit => []
  | pair head state tail => (head.pre_exec state input).2 :: tail.memberPreTraces input

/-- The trace each member's own `post_exec` callback emits, in declaration
order, with the observer set and exit kind threaded member to member exactly
as `post_exec_all` threads them. -/
def memberPostTraces (input : Input) (observers : Obs) (exit_kind : Ex) :
    QemuHelperTuple Input Obs Ex Ev → List (List Ev)
  | unit => []
  | pair head state tail =>
      let hd := head.post_exec state input observers exit_kind
      hd.2.2.2 :: tail.memberPostTraces input hd.2.1 hd.2.2.1

/-- Concatenation of two chains (used to speak about a chain that contains a
given helper somewhere in the middle). -/
def happend : QemuHelperTuple Input Obs Ex Ev → QemuHelperTuple Input Obs Ex Ev →
    QemuHelperTuple Input Obs Ex Ev
  | unit, c => c
  | pair head state tail, c => pair head state (tail.happend c)

end QemuHelperTuple

/-- A helper whose four callbacks each emit the single event `label`,
used to record call-order traces. -/
def labelHelper {Input Obs Ex Ev : Type} (label : Ev) : QemuHelper Unit Input Obs Ex Ev where
  HOOKS_DO_SIDE_EFFECTS := true
  init_hooks := fun _ => [label]
  first_exec := fun _ => [label]
  pre_exec := fun s _ => (s, [label])
  post_exec := fun s _ observers exit_kind => (s, observers, exit_kind, [label])

/-- The chain `(A, (B, (C, ())))` of three label-recording helpers. -/
def chainABC {Input Obs Ex Ev : Type} (a b c : Ev) : QemuHelperTuple Input Obs Ex Ev :=
  QemuHelperTuple.pair (labelHelper a) () <|
    QemuHelperTuple.pair (labelHelper b) () <|
      QemuHelperTuple.pair (labelHelper c) () QemuHelperTuple.unit

/-- A helper that overrides nothing: every field keeps the trait's default
(helper.rs lines 12-42). -/
def defaultHelper (σ Input Obs Ex Ev : Type) : QemuHelper σ Input Obs Ex Ev :=
  { }

/-! ## The coverage-counter registry (sancov_8bit.rs) -/

/-- One entry of `COUNTERS_MAPS`: a mutable slice `&'static mut [u8]`,
modelled as its (base pointer, length) pair. -/
abbrev CountersEntry := Nat × Nat

/-- The slice length computed by `stop.offset_from(start) as usize`:
a signed pointer difference reinterpreted as an unsigned 64-bit value. -/
def offsetLen (start stop : Nat) : Nat :=
  (((stop : Int) - (start : Int)) % (2 ^ 64 : Int)).toNat

/-- The process-wide mutable state the two source files touch: the
`COUNTERS_MAPS` static of sancov_8bit.rs, the helper chain with its
per-helper states, the trace of events emitted to the executor and hooks,
the shared observer set and the exit kind. -/
structure FuzzerState (Input Obs Ex Ev : Type) : Type 1 where
  COUNTERS_MAPS : List CountersEntry
  helpers : QemuHelperTuple Input Obs Ex Ev
  events : List Ev
  observers : Obs
  exit_kind : Ex

namespace FuzzerState

variable {Input Obs Ex Ev : Type}

/-- `__sanitizer_cov_8bit_counters_init` (sancov_8bit.rs lines 12-14):
`COUNTERS_MAPS.push(from_raw_parts_mut(start, stop.offset_from(start) as usize))`.
Appends one (base, length) entry at the end of the registry. -/
def sanitizer_cov_8bit_counters_init (start stop : Nat)
    (st : FuzzerState Input Obs Ex Ev) : FuzzerState Input Obs Ex Ev :=
  { st with COUNTERS_MAPS := st.COUNTERS_MAPS ++ [(start, offsetLen start stop)] }

/-- `init_hooks_all` as a transformer of the whole process state. -/
def initHooksAllSt (st : FuzzerState Input Obs Ex Ev) : FuzzerState Input Obs Ex Ev :=
  { st with events := st.events ++ st.helpers.init_hooks_all }

/-- `first_exec_all` as a transformer of the whole process state. -/
def firstExecAllSt (st : FuzzerState Input Obs Ex Ev) : FuzzerState Input Obs Ex Ev :=
  { st with events := st.events ++ st.helpers.first_exec_all }

/-- `pre_exec_all` as a transformer of the whole process state. -/
def preExecAllSt (input : Input) (st : FuzzerState Input Obs Ex Ev) :
    FuzzerState Input Obs Ex Ev :=
  let r := st.helpers.pre_exec_all input
  { st with helpers := r.1, events := st.events ++ r.2 }

/-- `post_exec_all` as a transformer of the whole process state. -/
def postExecAllSt (input : Input) (st : FuzzerState Input Obs Ex Ev) :
    FuzzerState Input Obs Ex Ev :=
  let r := st.helpers.post_exec_all input st.observers st.exit_kind
  { st with helpers := r.1, observers := r.2.1, exit_kind := r.2.2.1,
            events := st.events ++ r.2.2.2 }

end FuzzerState

/-! ## Helper lemmas -/

namespace QemuHelperTuple

variable {Input Obs Ex Ev : Type}

theorem init_hooks_all_eq_join (c : QemuHelperTuple Input Obs Ex Ev) :
    c.init_hooks_all = c.memberInitTraces.flatten := by
  induction c with
  | unit => rfl
  | pair head state tail ih =>
      simp [init_hooks_all, memberInitTraces, ih]

theorem first_exec_all_eq_join (c : QemuHelperTuple Input Obs Ex Ev) :
    c.first_exec_all = c.memberFirstTraces.flatten := by
  induction c with
  | unit => rfl
  | pair head state tail ih =>
      simp [first_exec_all, memberFirstTraces, ih]

theorem pre_exec_all_trace_eq_join (input : Input) (c : QemuHelperTuple Input Obs Ex Ev) :
    (c.pre_exec_all input).2 = (c.memberPreTraces input).flatten := by
  induction c with
  | unit => rfl
  | pair head state tail ih =>
      simp [pre_exec_all, memberPreTraces, ih]

theorem post_exec_all_trace_eq_join (input : Input) (c : QemuHelperTuple Input Obs Ex Ev) :
    ∀ (observers : Obs) (exit_kind : Ex),
      (c.post_exec_all input observers exit_kind).2.2.2
        = (c.memberPostTraces input observers exit_kind).flatten := by
  induction c with
  | unit => intro observers exit_kind; rfl
  | pair head state tail ih =>
      intro observers exit_kind
      simp [post_exec_all, memberPostTraces, ih]

theorem hooks_happend (a b : QemuHelperTuple Input Obs Ex Ev) :
    (a.happend b).HOOKS_DO_SIDE_EFFECTS
      = (a.HOOKS_DO_SIDE_EFFECTS || b.HOOKS_DO_SIDE_EFFECTS) := by
  induction a with
  | unit => simp [happend, HOOKS_DO_SIDE_EFFECTS]
  | pair head state tail ih =>
      simp [happend, HOOKS_DO_SIDE_EFFECTS, ih, Bool.or_assoc]

end QemuHelperTuple

theorem offsetLen_add (p k : Nat) (hk : k < 2 ^ 64) : offsetLen p (p + k) = k := by
  unfold offsetLen
  have h1 : ((p + k : Nat) : Int) - (p : Int) = (k : Int) := by push_cast; ring
  rw [h1]
  rw [Int.emod_eq_of_lt (by positivity) (by exact_mod_cast hk)]
  exact Int.toNat_natCast k

/-! ## The claims -/

/-- C1: each of the four lifecycle dispatch operations invokes the
corresponding callback of every member in declaration order, head first;
for the chain `(A, (B, (C, ())))` of label-recording helpers the traces of
all four operations read `[A, B, C]`; the empty chain performs zero
callback invocations. -/
theorem C1_dispatch_order :
    (∀ (Input Obs Ex Ev : Type) (c : QemuHelperTuple Input Obs Ex Ev)
        (input : Input) (observers : Obs) (exit_kind : Ex),
        c.init_hooks_all = c.memberInitTraces.flatten
      ∧ c.first_exec_all = c.memberFirstTraces.flatten
      ∧ (c.pre_exec_all input).2 = (c.memberPreTraces input).flatten
      ∧ (c.post_exec_all input observers exit_kind).2.2.2
          = (c.memberPostTraces input observers exit_kind).flatten)
  ∧ (∀ (Input Obs Ex Ev : Type) (input : Input) (observers : Obs) (exit_kind : Ex)
        (a b c : Ev),
        (chainABC a b c : QemuHelperTuple Input Obs Ex Ev).init_hooks_all = [a, b, c]
      ∧ (chainABC a b c : QemuHelperTuple Input Obs Ex Ev).first_exec_all = [a, b, c]
      ∧ ((chainABC a b c : QemuHelperTuple Input Obs Ex Ev).pre_exec_all input).2 = [a, b, c]
      ∧ ((chainABC a b c : QemuHelperTuple Input Obs Ex Ev).post_exec_all
            input observers exit_kind).2.2.2 = [a, b, c])
  ∧ (∀ (Input Obs Ex Ev : Type) (input : Input) (observers : Obs) (exit_kind : Ex),
        (QemuHelperTuple.unit : QemuHelperTuple Input Obs Ex Ev).init_hooks_all = []
      ∧ (QemuHelperTuple.unit : QemuHelperTuple Input Obs Ex Ev).first_exec_all = []
      ∧ ((QemuHelperTuple.unit : QemuHelperTuple Input Obs Ex Ev).pre_exec_all input).2 = []
      ∧ ((QemuHelperTuple.unit : QemuHelperTuple Input Obs Ex Ev).post_exec_all
            input observers exit_kind).2.2.2 = []) := by
  refine ⟨?_, ?_, ?_⟩
  · intro Input Obs Ex Ev c input observers exit_kind
    exact ⟨c.init_hooks_all_eq_join, c.first_exec_all_eq_join,
      c.pre_exec_all_trace_eq_join input,
      c.post_exec_all_trace_eq_join input observers exit_kind⟩
  · intro Input Obs Ex Ev input observers exit_kind a b c
    exact ⟨rfl, rfl, rfl, rfl⟩
  · intro Input Obs Ex Ev input observers exit_kind
    exact ⟨rfl, rfl, rfl, rfl⟩

/-- C2: the filter-list wrapper forwards `AllowList`, negates `DenyList`,
and the unrestricted variant answers `true` for every parameter. -/
theorem C2_filter_list_semantics :
    ∀ (T : Type) [inst : IsFilter T] (F : T) (p : inst.FilterParameter),
        (QemuFilterList.AllowList F).allowed p = IsFilter.allowed F p
      ∧ (QemuFilterList.DenyList F).allowed p = !IsFilter.allowed F p
      ∧ (QemuFilterList.None : QemuFilterList T).allowed p = true := by
  intro T inst F p
  exact ⟨rfl, rfl, rfl⟩

/-- C3: the address-range filter accepts an address iff some half-open
range of the collection contains it (upper bound exclusive); concretely,
for the range list `[[10,20), [30,40)]`: 15 is allowed, 25 is not, 30 is,
40 is not. -/
theorem C3_address_range_filter :
    (∀ (ranges : List GuestRange) (addr : GuestAddr),
        rangeListAllowed ranges addr = true
          ↔ ∃ rng ∈ ranges, rng.1 ≤ addr ∧ addr < rng.2)
  ∧ rangeListAllowed [(10, 20), (30, 40)] 15 = true
  ∧ rangeListAllowed [(10, 20), (30, 40)] 25 = false
  ∧ rangeListAllowed [(10, 20), (30, 40)] 30 = true
  ∧ rangeListAllowed [(10, 20), (30, 40)] 40 = false := by
  refine ⟨?_, by decide, by decide, by decide, by decide⟩
  intro ranges addr
  induction ranges with
  | nil => simp [rangeListAllowed]
  | cons rng rest ih =>
      by_cases h : rng.contains addr = true
      · have hc : rng.1 ≤ addr ∧ addr < rng.2 := by
          simpa [GuestRange.contains] using h
        simp [rangeListAllowed, h, hc]
      · have hc : ¬(rng.1 ≤ addr ∧ addr < rng.2) := by
          simpa [GuestRange.contains] using h
        simp [rangeListAllowed, h, ih, hc]

/-- C4: the paging filter accepts `some id` iff the set contains `id` and
always rejects `none`; concretely for the set `{5, 7}`: `some 5` is
allowed, `some 6` and `none` are not. -/
theorem C4_paging_filter :
    (∀ (S : List GuestPhysAddr) (id : GuestPhysAddr),
        pagingSetAllowed S (some id) = true ↔ id ∈ S)
  ∧ (∀ (S : List GuestPhysAddr), pagingSetAllowed S none = false)
  ∧ pagingSetAllowed [5, 7] (some 5) = true
  ∧ pagingSetAllowed [5, 7] (some 6) = false
  ∧ pagingSetAllowed [5, 7] none = false := by
  refine ⟨?_, fun S => rfl, by decide, by decide, by decide⟩
  intro S id
  simp [pagingSetAllowed, List.contains_iff_exists_mem_beq]

/-- C5: one call to `update_filter` stores the new filter and sends exactly
one `flush_jit` notification to the executor, unconditionally. -/
theorem C5_update_filter :
    ∀ (F : Type) (holder : FilterHolder F) (filter : F) (emu : Qemu),
        (update_filter holder filter emu).1.filter = filter
      ∧ (update_filter holder filter emu).2.jit_flush_count = emu.jit_flush_count + 1 := by
  intro F holder filter emu
  exact ⟨rfl, rfl⟩

/-- C6: each registration call appends exactly one entry of length
`stop - start` at the end of `COUNTERS_MAPS`; registering `(p0, p0+8)` then
`(p1, p1+16)` appends two entries in that order with lengths 8 and 16. -/
theorem C6_counters_registration :
    (∀ (Input Obs Ex Ev : Type) (st : FuzzerState Input Obs Ex Ev) (start stop : Nat),
        (st.sanitizer_cov_8bit_counters_init start stop).COUNTERS_MAPS
          = st.COUNTERS_MAPS ++ [(start, offsetLen start stop)])
  ∧ (∀ (Input Obs Ex Ev : Type) (st : FuzzerState Input Obs Ex Ev) (p0 p1 : Nat),
        ((st.sanitizer_cov_8bit_counters_init p0 (p0 + 8)).sanitizer_cov_8bit_counters_init
            p1 (p1 + 16)).COUNTERS_MAPS
          = st.COUNTERS_MAPS ++ [(p0, 8), (p1, 16)]) := by
  constructor
  · intro Input Obs Ex Ev st start stop
    rfl
  · intro Input Obs Ex Ev st p0 p1
    simp [FuzzerState.sanitizer_cov_8bit_counters_init,
      offsetLen_add p0 8 (by norm_num), offsetLen_add p1 16 (by norm_num)]

/-- C7: the chain's `HOOKS_DO_SIDE_EFFECTS` is the logical OR of the
members' flags, and the empty chain's flag is `false`. -/
theorem C7_hooks_do_side_effects_or :
    (∀ (Input Obs Ex Ev : Type) (c : QemuHelperTuple Input Obs Ex Ev),
        c.HOOKS_DO_SIDE_EFFECTS = c.memberFlags.any id)
  ∧ (∀ (Input Obs Ex Ev : Type),
        (QemuHelperTuple.unit : QemuHelperTuple Input Obs Ex Ev).HOOKS_DO_SIDE_EFFECTS
          = false) := by
  constructor
  · intro Input Obs Ex Ev c
    induction c with
    | unit => rfl
    | pair head state tail ih =>
        simp [QemuHelperTuple.HOOKS_DO_SIDE_EFFECTS, QemuHelperTuple.memberFlags, ih]
  · intro Input Obs Ex Ev
    rfl

/-- C8: `hash_me` is a pure total function on 64-bit values (an input below
`2 ^ 64` yields an output below `2 ^ 64`), and `hash_me 0` and `hash_me 1`
differ in the high 32 bits of the 64-bit output. -/
theorem C8_hash_me :
    (∀ x : Nat, x < 2 ^ 64 → hash_me x < 2 ^ 64)
  ∧ hash_me 0 / 2 ^ 32 ≠ hash_me 1 / 2 ^ 32 := by
  constructor
  · intro x hx
    unfold hash_me
    have hmod : ∀ y : Nat, y * 0x45d9f3b % 2 ^ 64 < 2 ^ 64 :=
      fun y => Nat.mod_lt _ (by norm_num)
    have hshift : ∀ y : Nat, y < 2 ^ 64 → y >>> 16 < 2 ^ 64 := fun y hy =>
      lt_of_le_of_lt (by rw [Nat.shiftRight_eq_div_pow]; exact Nat.div_le_self _ _) hy
    set x1 := ((x >>> 16) ^^^ x) * 0x45d9f3b % 2 ^ 64 with hx1
    set x2 := ((x1 >>> 16) ^^^ x1) * 0x45d9f3b % 2 ^ 64 with hx2
    have h2 : x2 < 2 ^ 64 := hmod _
    exact Nat.xor_lt_two_pow (Nat.xor_lt_two_pow (hshift _ h2) h2) h2
  · decide

/-- Witness for C8 at the concrete input 3. -/
theorem C8_hash_me_witness : (3 : Nat) < 2 ^ 64 ∧ hash_me 3 < 2 ^ 64 :=
  ⟨by norm_num, C8_hash_me.1 3 (by norm_num)⟩

/-- C9: the four lifecycle dispatch operations leave the coverage-counter
registry `COUNTERS_MAPS` unchanged; the registration entry point does
change it. -/
theorem C9_dispatch_preserves_counters :
    ∀ (Input Obs Ex Ev : Type) (st : FuzzerState Input Obs Ex Ev) (input : Input),
        st.initHooksAllSt.COUNTERS_MAPS = st.COUNTERS_MAPS
      ∧ st.firstExecAllSt.COUNTERS_MAPS = st.COUNTERS_MAPS
      ∧ (st.preExecAllSt input).COUNTERS_MAPS = st.COUNTERS_MAPS
      ∧ (st.postExecAllSt input).COUNTERS_MAPS = st.COUNTERS_MAPS
      ∧ ∀ (start stop : Nat),
          (st.sanitizer_cov_8bit_counters_init start stop).COUNTERS_MAPS.length
            = st.COUNTERS_MAPS.length + 1 := by
  intro Input Obs Ex Ev st input
  refine ⟨rfl, rfl, rfl, rfl, ?_⟩
  intro start stop
  simp [FuzzerState.sanitizer_cov_8bit_counters_init]

/-- C10: a non-overriding helper keeps the trait defaults —
`HOOKS_DO_SIDE_EFFECTS = true` and all four callbacks no-ops — and any
chain containing such a helper has `HOOKS_DO_SIDE_EFFECTS = true`. -/
theorem C10_default_helper :
    ∀ (σ Input Obs Ex Ev : Type) (s : σ) (input : Input) (observers : Obs) (exit_kind : Ex),
        (defaultHelper σ Input Obs Ex Ev).HOOKS_DO_SIDE_EFFECTS = true
      ∧ (defaultHelper σ Input Obs Ex Ev).init_hooks s = []
      ∧ (defaultHelper σ Input Obs Ex Ev).first_exec s = []
      ∧ (defaultHelper σ Input Obs Ex Ev).pre_exec s input = (s, [])
      ∧ (defaultHelper σ Input Obs Ex Ev).post_exec s input observers exit_kind
          = (s, observers, exit_kind, [])
      ∧ ∀ (c1 c2 : QemuHelperTuple Input Obs Ex Ev),
          (c1.happend (QemuHelperTuple.pair (defaultHelper σ Input Obs Ex Ev) s
            c2)).HOOKS_DO_SIDE_EFFECTS = true := by
  intro σ Input Obs Ex Ev s input observers exit_kind
  refine ⟨rfl, rfl, rfl, rfl, rfl, ?_⟩
  intro c1 c2
  simp [QemuHelperTuple.hooks_happend, QemuHelperTuple.HOOKS_DO_SIDE_EFFECTS, defaultHelper]

end LibAFL
